import Mathlib

/-!
Verification development for `search_packages.py` (cdt-builds): a shallow
embedding of the repository-search pipeline, together with theorems checking
the natural-language specification against it.
-/

/-- Lowercasing of a character sequence; models Python `str.lower` on the
ASCII range (`Char.toLower` lowercases ASCII letters). -/
def lowerL (s : List Char) : List Char := s.map Char.toLower

/-- `listPrefixOf pat s` is true iff `pat` is an initial segment of `s`. -/
def listPrefixOf : List Char → List Char → Bool
  | [], _ => true
  | _ :: _, [] => false
  | a :: as, b :: bs => a == b && listPrefixOf as bs

/-- `listInfixOf pat s`: `pat` occurs contiguously inside `s`; models the
Python `in` operator on strings. -/
def listInfixOf (pat : List Char) : List Char → Bool
  | [] => listPrefixOf pat []
  | c :: rest => listPrefixOf pat (c :: rest) || listInfixOf pat rest

/-- `listSuffixOf pat s`: `pat` is a final segment of `s`. -/
def listSuffixOf (pat s : List Char) : Bool := listPrefixOf pat.reverse s.reverse

/-- Number of positions of `s` at which `pat` starts (non-empty `pat`). -/
def occCount (pat : List Char) : List Char → Nat
  | [] => 0
  | c :: rest => (if listPrefixOf pat (c :: rest) then 1 else 0) + occCount pat rest

/-- Fuel-indexed worker for `replaceAllL`; the fuel is an upper bound on the
length of the scanned list, so the result never depends on it in our uses. -/
def replaceFuel (pat rep : List Char) : Nat → List Char → List Char
  | _, [] => []
  | 0, s => s
  | fuel + 1, c :: rest =>
    if listPrefixOf pat (c :: rest) && !pat.isEmpty then
      rep ++ replaceFuel pat rep fuel ((c :: rest).drop pat.length)
    else
      c :: replaceFuel pat rep fuel rest

/-- Replace every non-overlapping occurrence of `pat` in `s` by `rep`,
scanning left to right. -/
def replaceAllL (pat rep s : List Char) : List Char := replaceFuel pat rep s.length s

/-- Models Python `str.replace`: all non-overlapping occurrences are replaced,
left to right (the program only ever uses non-empty patterns). -/
def pyReplace (s pat rep : String) : String := String.mk (replaceAllL pat.data rep.data s.data)

/-- Split `s` at the first occurrence of `sep`, returning the parts before and
after it; `none` when `sep` does not occur. -/
def splitAtInfix (sep : List Char) : List Char → Option (List Char × List Char)
  | [] => none
  | c :: rest =>
    if listPrefixOf sep (c :: rest) then some ([], (c :: rest).drop sep.length)
    else
      match splitAtInfix sep rest with
      | some (pre, post) => some (c :: pre, post)
      | none => none

/-- Everything up to and including the last slash of `s` (empty if none). -/
def takeUpToLastSlash (s : List Char) : List Char :=
  (s.reverse.dropWhile (fun c => c != '/')).reverse

/-- The scheme and authority part of an absolute URL, e.g.
`https://host` of `https://host/a/b`. -/
def schemeAuthority (s : List Char) : List Char :=
  match splitAtInfix "://".data s with
  | some (pre, post) => pre ++ "://".data ++ post.takeWhile (fun c => c != '/')
  | none => s

/-- Models `urllib.parse.urljoin`, restricted to the URL shapes this program
produces: an absolute http(s) base, and a reference that carries its own
scheme, or is host-relative (leading `/`), or is a plain relative path
without dot segments. -/
def urljoinModel (base url : String) : String :=
  if (splitAtInfix "://".data url.data).isSome then url
  else if url.data.head? = some '/' then String.mk (schemeAuthority base.data ++ url.data)
  else String.mk (takeUpToLastSlash base.data ++ url.data)

/-! ## Data model (from `search_packages.py`) -/

/-- One `package` element of the decompressed primary package-list document.
Each field is the corresponding sub-element / attribute the source reads:
`name` from `package.find("name").text`, `arch` from `package.find("arch").text`,
`ver` and `rel` from `package.find("version").attrib`; `none` means the lookup
would raise in Python (missing element or attribute). -/
structure PackageXml where
  name : Option String
  arch : Option String
  ver : Option String
  rel : Option String
deriving DecidableEq

/-- A package record as built at lines 75-83 of the source (dict literal with
keys `name`, `version`, `release`, `arch`, `full_name`). -/
structure Package where
  name : String
  version : String
  release : String
  arch : String
  full_name : String
deriving DecidableEq

/-- One child element of the parsed `repomd.xml` index document: its `type`
attribute and the `href` attributes of its `location` children (`none` for a
`location` element lacking the attribute). -/
structure RepomdEntry where
  typ : String
  locations : List (Option String)
deriving DecidableEq

instance {ε α : Type} [DecidableEq ε] [DecidableEq α] : DecidableEq (Except ε α) := fun x y =>
  match x, y with
  | .ok a, .ok b => if h : a = b then isTrue (by rw [h]) else isFalse (by simp [h])
  | .error a, .error b => if h : a = b then isTrue (by rw [h]) else isFalse (by simp [h])
  | .ok _, .error _ => isFalse (by simp)
  | .error _, .ok _ => isFalse (by simp)

/-- Outcome of one `requests.get` call plus parsing of its payload:
`exn` for a raised transport exception, otherwise the HTTP status together
with the parse result of the body (`Except.error` when decompression or
`ET.fromstring` would raise; the body is only consulted on status 200). -/
inductive FetchOutcome (α : Type) where
  | exn : FetchOutcome α
  | resp (status : Nat) (body : Except Unit α) : FetchOutcome α
deriving DecidableEq

/-- The network environment: what each URL returns for the index document
fetch and for the package-list fetch. -/
structure World where
  repomd : String → FetchOutcome (List RepomdEntry)
  primary : String → FetchOutcome (List PackageXml)

/-! ## The filter loop (source lines 68-83) -/

/-- `search_term.lower() in name.lower()` (source line 71). -/
def matchesTerm (search_term name : String) : Bool :=
  listInfixOf (lowerL search_term.data) (lowerL name.data)

/-- Reading an optional element/attribute; `none` raises in Python. -/
def getAttr : Option String → Except Unit String
  | some v => .ok v
  | none => .error ()

/-- The `for package in primary_root.findall("package")` loop of source lines
68-83: sequentially read `name`, apply the substring filter, then read the
remaining fields and build the record; any missing field raises, which
propagates out of the whole loop. -/
def collectPackages (search_term : String) : List PackageXml → Except Unit (List Package)
  | [] => .ok []
  | p :: rest =>
    match p.name with
    | none => .error ()
    | some name =>
      if matchesTerm search_term name then
        match p.arch, p.ver, p.rel with
        | some arch, some version, some release =>
          match collectPackages search_term rest with
          | .error e => .error e
          | .ok restPkgs =>
            .ok ({ name := name, version := version, release := release, arch := arch,
                   full_name := name ++ "-" ++ version ++ "-" ++ release ++ "." ++ arch } :: restPkgs)
        | _, _, _ => .error ()
      else
        collectPackages search_term rest

/-! ## Per-sub-repository search (source lines 36-92) -/

/-- `child.findall("location")[0].attrib["href"]` (source line 53): indexing an
empty list raises, as does a missing `href` attribute. -/
def locationHref (e : RepomdEntry) : Except Unit String :=
  match e.locations.head? with
  | none => .error ()
  | some none => .error ()
  | some (some h) => .ok h

/-- `urljoin(repomd_url.replace("/repodata/repomd.xml", "/"), location)`
(source lines 54-56). -/
def primaryUrlOf (repomd_url location : String) : String :=
  urljoinModel (pyReplace repomd_url "/repodata/repomd.xml" "/") location

/-- The `for child in repomd.findall("*[@type='primary']")` loop (source lines
52-85): for each `primary`-typed entry, resolve and fetch the package list;
a non-200 status continues with the next candidate, success returns the
filtered packages, and any raised exception propagates. The first component
records the package-list URLs actually requested. -/
def primaryLoop (w : World) (repomd_url search_term : String) :
    List RepomdEntry → List String × Except Unit (Option (List Package))
  | [] => ([], .ok none)
  | e :: rest =>
    if e.typ = "primary" then
      match locationHref e with
      | .error err => ([], .error err)
      | .ok href =>
        let primary_url := primaryUrlOf repomd_url href
        match w.primary primary_url with
        | .exn => ([primary_url], .error ())
        | .resp status body =>
          if status ≠ 200 then
            let r := primaryLoop w repomd_url search_term rest
            (primary_url :: r.1, r.2)
          else
            ([primary_url],
              match body with
              | .error err => .error err
              | .ok xml =>
                match collectPackages search_term xml with
                | .error err => .error err
                | .ok pkgs => .ok (some pkgs))
    else primaryLoop w repomd_url search_term rest

/-- `search_packages_in_repo` (source lines 36-92).  Returns the packages the
call would return together with the list of URLs it requested over the
network (the instrumentation used to state "zero network calls" claims).
Every raised exception is caught at the bottom and yields `[]`. -/
def search_packages_in_repo (w : World) (repomd_url search_term : String) :
    List Package × List String :=
  match w.repomd repomd_url with
  | .exn => ([], [repomd_url])
  | .resp status body =>
    if status ≠ 200 then ([], [repomd_url])
    else
      match body with
      | .error _ => ([], [repomd_url])
      | .ok entries =>
        let r := primaryLoop w repomd_url search_term entries
        match r.2 with
        | .ok (some pkgs) => (pkgs, repomd_url :: r.1)
        | .ok none => ([], repomd_url :: r.1)
        | .error _ => ([], repomd_url :: r.1)

/-! ## Configuration and CLI (source lines 17-33 and 95-180) -/

/-- One entry of `REPO_CONFIGS` (source lines 17-33). -/
structure RepoConfig where
  base_url : String
  repos : List String
  repodata_path : String
deriving DecidableEq

def centos7Config : RepoConfig :=
  { base_url := "https://vault.centos.org/7.9.2009/os/{architecture}/",
    repos := ["os"],
    repodata_path := "repodata/repomd.xml" }

def alma8Config : RepoConfig :=
  { base_url := "https://vault.almalinux.org/8.9/{repo}/{architecture}/os/",
    repos := ["BaseOS", "AppStream", "PowerTools"],
    repodata_path := "repodata/repomd.xml" }

def alma9Config : RepoConfig :=
  { base_url := "https://vault.almalinux.org/9.4/{repo}/{architecture}/os/",
    repos := ["BaseOS", "AppStream", "CRB", "devel"],
    repodata_path := "repodata/repomd.xml" }

/-- The `REPO_CONFIGS` table (source lines 17-33). -/
def REPO_CONFIGS : List (String × RepoConfig) :=
  [("centos7", centos7Config), ("alma8", alma8Config), ("alma9", alma9Config)]

/-- `base_url.format(architecture=...)` for the centos7 template. -/
def formatUrlArch (template architecture : String) : String :=
  pyReplace template "{architecture}" architecture

/-- `base_url.format(repo=..., architecture=...)` for the alma templates. -/
def formatUrl (template repo architecture : String) : String :=
  pyReplace (pyReplace template "{repo}" repo) "{architecture}" architecture

/-- The metadata-index URL built at source lines 150-153. -/
def repomdUrlFor (distro : String) (cfg : RepoConfig) (architecture repo : String) : String :=
  if distro = "centos7" then formatUrlArch cfg.base_url architecture ++ cfg.repodata_path
  else formatUrl cfg.base_url repo architecture ++ cfg.repodata_path

/-- The parsed argparse namespace.  The positional `search_term` argument and
the `--search-term` flag share this single `search_term` attribute (same
`dest`), so the namespace has one slot for both; the field holds whatever
value parsing stored there (`none` when neither form was given). -/
structure Args where
  search_term : Option String
  distro : String
  architecture : String
  repo : Option String
  exact : Bool

/-- Python truthiness of an optional string: `None` and `""` are falsy. -/
def pyTruthy : Option String → Bool
  | none => false
  | some s => !(s == "")

/-- Python `a or b` on optional strings. -/
def pyOr (a b : Option String) : Option String :=
  if pyTruthy a then a else b

/-- Source line 133: `search_term = args.search_term or args.search_term`. -/
def determineSearchTerm (args : Args) : Option String :=
  pyOr args.search_term args.search_term

/-- The `--distro` choices accepted by the argument parser (source line 113);
an invalid choice makes argparse exit with status 2 before `main`'s body
runs. -/
def distroChoices : List String := ["centos7", "alma8", "alma9"]

/-- `repos_to_search = [args.repo] if args.repo else config["repos"]`
(source line 145). -/
def reposToSearch (repoArg : Option String) (cfg : RepoConfig) : List String :=
  match repoArg with
  | some r => [r]
  | none => cfg.repos

/-- The per-sub-repository listing printed at source lines 158-162: the
`Found n packages:` block prints `full_name` only for entries passing the
exact filter (`if args.exact and pkg["name"] != search_term: continue`). -/
def perRepoPrintedLines (exact : Bool) (search_term : String) (pkgs : List Package) :
    List String :=
  (pkgs.filter (fun p => !exact || p.name == search_term)).map
    (fun p => "    " ++ p.full_name)

/-- Observable outcome of one program run: the accumulated `all_packages`
pairs, the banner count of the summary (source line 169), the lines printed
after the banner (source lines 172-178), the per-sub-repository listing
blocks, the URLs requested over the network, and the process exit code. -/
structure MainResult where
  allPackages : List (Package × String)
  summaryCount : Nat
  finalLines : List String
  perRepoPrinted : List (List String)
  urls : List String
  exitCode : Nat
deriving DecidableEq

/-- A run that terminated before reaching the search loop (argparse rejection
or the unknown-distro branch): nothing fetched, nothing accumulated. -/
def emptyResult (code : Nat) : MainResult :=
  { allPackages := [], summaryCount := 0, finalLines := [], perRepoPrinted := [],
    urls := [], exitCode := code }

/-- One iteration of `for repo in repos_to_search` (source lines 149-166):
build the URL, search, print the per-repository block, and extend
`all_packages` (extending with an empty list is a no-op, so the
`if packages:` guard only affects the printed text). -/
def mainStep (w : World) (distro : String) (cfg : RepoConfig)
    (architecture search_term : String) (exact : Bool)
    (acc : List (Package × String) × List String × List (List String))
    (repo : String) :
    List (Package × String) × List String × List (List String) :=
  let url := repomdUrlFor distro cfg architecture repo
  let r := search_packages_in_repo w url search_term
  (acc.1 ++ r.1.map (fun p => (p, repo)),
   acc.2.1 ++ r.2,
   acc.2.2 ++ [perRepoPrintedLines exact search_term r.1])

/-- The body of `main` after argument validation (source lines 144-180):
loop over the sub-repositories, print the summary banner with
`len(all_packages)`, re-filter when `--exact` is set, print the final lines,
and return 0. -/
def runSearch (w : World) (distro : String) (cfg : RepoConfig)
    (architecture search_term : String) (repoArg : Option String) (exact : Bool) :
    MainResult :=
  let acc := (reposToSearch repoArg cfg).foldl
    (mainStep w distro cfg architecture search_term exact) ([], [], [])
  let all_packages := acc.1
  let summaryCount := all_packages.length
  let finalPairs :=
    if exact then all_packages.filter (fun pr => pr.1.name == search_term)
    else all_packages
  { allPackages := all_packages,
    summaryCount := summaryCount,
    finalLines := finalPairs.map (fun pr => pr.1.full_name ++ " (from " ++ pr.2 ++ ")"),
    perRepoPrinted := acc.2.2,
    urls := acc.2.1,
    exitCode := 0 }

/-- The whole program (`main`, source lines 95-184), starting from the raw
command-line values: the argparse layer applies the defaults (`alma9`,
`x86_64`) and rejects a `--distro` value outside its `choices` with exit
status 2; `parser.error` for a missing search term also exits with 2; the
explicit `distro not in REPO_CONFIGS` check (source lines 140-142) returns 1;
otherwise the search loop runs and `main` returns 0. -/
def CLImain (w : World) (distroArg searchTermSlot archArg repoArg : Option String)
    (exact : Bool) : MainResult :=
  let distro := distroArg.getD "alma9"
  if !(distroChoices.contains distro) then emptyResult 2
  else
    let args : Args := { search_term := searchTermSlot, distro := distro,
                         architecture := archArg.getD "x86_64", repo := repoArg,
                         exact := exact }
    let st := determineSearchTerm args
    if !(pyTruthy st) then emptyResult 2
    else
      match REPO_CONFIGS.lookup args.distro with
      | none => emptyResult 1
      | some cfg =>
        runSearch w args.distro cfg args.architecture (st.getD "") args.repo args.exact

/-! ## Concrete fixtures used by witnesses and counterexamples -/

/-- A well-formed `package` element named `foobar`. -/
def pkgFoo : PackageXml :=
  { name := some "foobar", arch := some "x86_64", ver := some "1.0", rel := some "2.el9" }

/-- A `package` element whose name matches `foo` but whose `arch` sub-element
is missing, so reading it raises. -/
def pkgBad : PackageXml :=
  { name := some "football", arch := none, ver := some "3", rel := some "4" }

/-- The record the source builds from `pkgFoo`. -/
def entryFooBar : Package :=
  { name := "foobar", version := "1.0", release := "2.el9", arch := "x86_64",
    full_name := "foobar-1.0-2.el9.x86_64" }

/-- An index entry pointing at one primary package list. -/
def primEntry : RepomdEntry :=
  { typ := "primary", locations := [some "repodata/primary.xml.gz"] }

/-- A healthy network: every index fetch yields one primary entry, every
package-list fetch yields the single `foobar` package. -/
def okWorld : World :=
  { repomd := fun _ => .resp 200 (.ok [primEntry]),
    primary := fun _ => .resp 200 (.ok [pkgFoo]) }

/-- A dead network: every request raises. -/
def failWorld : World :=
  { repomd := fun _ => .exn, primary := fun _ => .exn }

/-- A network whose index lists two primary candidates; the first package-list
fetch returns HTTP 404, the second succeeds. -/
def twoPrimaryWorld : World :=
  { repomd := fun _ => .resp 200 (.ok
      [{ typ := "primary", locations := [some "p1.xml.gz"] },
       { typ := "primary", locations := [some "p2.xml.gz"] }]),
    primary := fun u =>
      if u = "http://h/a/p1.xml.gz" then .resp 404 (.error ())
      else .resp 200 (.ok [pkgFoo]) }

/-- A network whose package list contains a well-formed match and a matching
element with a missing required field. -/
def badFieldWorld : World :=
  { repomd := fun _ => .resp 200 (.ok [primEntry]),
    primary := fun _ => .resp 200 (.ok [pkgFoo, pkgBad]) }

/-- A network answering every index fetch with HTTP 404. -/
def notFoundWorld : World :=
  { repomd := fun _ => .resp 404 (.ok []), primary := fun _ => .exn }

/-- A network whose index documents fail to parse. -/
def parseErrWorld : World :=
  { repomd := fun _ => .resp 200 (.error ()), primary := fun _ => .exn }

/-- A two-sub-repository configuration used to exhibit duplicate entries. -/
def dupConfig : RepoConfig :=
  { base_url := "http://h/{repo}/{architecture}/",
    repos := ["r1", "r2"],
    repodata_path := "repodata/repomd.xml" }

/-! ## Specification-side definitions -/

/-- The trailing `/repodata/repomd.xml` pattern the source replaces. -/
def repodataSeg : List Char := "/repodata/repomd.xml".data

/-- Follows the spec's words for the package-list URL resolution: the index
URL with its trailing `repodata/repomd.xml` segment removed (yielding the
directory containing `repodata/`); URLs not ending in the segment are left
unchanged.  Used only to compare the claimed resolution rule with the
source's `str.replace`-based one. -/
def specIndexDir (url : String) : String :=
  if listSuffixOf "repodata/repomd.xml".data url.data then
    String.mk (url.data.take (url.data.length - "repodata/repomd.xml".data.length))
  else url

/-- The entry a `package` element contributes according to the source's loop:
`some` exactly when the element's name is present and passes the substring
filter and all remaining fields are present. -/
def toEntry? (search_term : String) (p : PackageXml) : Option Package :=
  match p.name with
  | none => none
  | some n =>
    if matchesTerm search_term n then
      match p.arch, p.ver, p.rel with
      | some a, some v, some r =>
        some { name := n, version := v, release := r, arch := a,
               full_name := n ++ "-" ++ v ++ "-" ++ r ++ "." ++ a }
      | _, _, _ => none
    else none

/-- A `package` element whose processing by the loop of source lines 68-83
raises: its name is missing, or its name matches the search term but one of
the remaining required fields is missing. -/
def badElem (search_term : String) (p : PackageXml) : Prop :=
  p.name = none ∨
    ∃ n, p.name = some n ∧ matchesTerm search_term n = true ∧
      (p.arch = none ∨ p.ver = none ∨ p.rel = none)

/-- Order-preserving concatenation map, used to state accumulation order. -/
def flatMapL {α β : Type} (f : α → List β) : List α → List β
  | [] => []
  | a :: as => f a ++ flatMapL f as

/-- The pairs one sub-repository contributes to `all_packages`. -/
def repoContribution (w : World) (distro : String) (cfg : RepoConfig)
    (architecture search_term repo : String) : List (Package × String) :=
  (search_packages_in_repo w (repomdUrlFor distro cfg architecture repo) search_term).1.map
    (fun p => (p, repo))

/-- The network requests one sub-repository's search performs. -/
def repoTraceOf (w : World) (distro : String) (cfg : RepoConfig)
    (architecture search_term repo : String) : List String :=
  (search_packages_in_repo w (repomdUrlFor distro cfg architecture repo) search_term).2

/-! ## Lemmas about the filter loop -/

theorem toEntry?_some_spec (t : String) (p : PackageXml) (e : Package)
    (h : toEntry? t p = some e) :
    matchesTerm t e.name = true ∧
      e.full_name = e.name ++ "-" ++ e.version ++ "-" ++ e.release ++ "." ++ e.arch := by
  cases hp : p.name with
  | none => simp [toEntry?, hp] at h
  | some n =>
    by_cases hm : matchesTerm t n = true
    · cases ha : p.arch with
      | none => simp [toEntry?, hp, hm, ha] at h
      | some a =>
        cases hv : p.ver with
        | none => simp [toEntry?, hp, hm, ha, hv] at h
        | some v =>
          cases hr : p.rel with
          | none => simp [toEntry?, hp, hm, ha, hv, hr] at h
          | some r =>
            simp only [toEntry?, hp, hm, if_true, ha, hv, hr, Option.some.injEq] at h
            subst h
            exact ⟨hm, rfl⟩
    · simp [toEntry?, hp, hm] at h

theorem collect_ok_filterMap (t : String) :
    ∀ (xml : List PackageXml) (pkgs : List Package),
      collectPackages t xml = .ok pkgs → pkgs = xml.filterMap (toEntry? t) := by
  intro xml
  induction xml with
  | nil =>
    intro pkgs h
    simp only [collectPackages, Except.ok.injEq] at h
    simp [← h]
  | cons p rest ih =>
    intro pkgs h
    cases hp : p.name with
    | none => simp [collectPackages, hp] at h
    | some n =>
      by_cases hm : matchesTerm t n = true
      · cases ha : p.arch with
        | none => simp [collectPackages, hp, hm, ha] at h
        | some a =>
          cases hv : p.ver with
          | none => simp [collectPackages, hp, hm, ha, hv] at h
          | some v =>
            cases hr : p.rel with
            | none => simp [collectPackages, hp, hm, ha, hv, hr] at h
            | some r =>
              simp only [collectPackages, hp, hm, if_true, ha, hv, hr] at h
              cases hc : collectPackages t rest with
              | error e => rw [hc] at h; cases h
              | ok restPkgs =>
                rw [hc] at h
                cases h
                simp only [List.filterMap_cons, toEntry?, hp, hm, if_true, ha, hv, hr]
                exact congrArg _ (ih restPkgs hc)
      · simp only [collectPackages, hp, hm, if_false, Bool.false_eq_true] at h
        simp only [List.filterMap_cons, toEntry?, hp, hm, if_false, Bool.false_eq_true]
        exact ih pkgs h

theorem collect_error_of_bad (t : String) :
    ∀ (xml : List PackageXml), (∃ q ∈ xml, badElem t q) →
      collectPackages t xml = .error () := by
  intro xml
  induction xml with
  | nil => rintro ⟨q, hq, _⟩; cases hq
  | cons p rest ih =>
    rintro ⟨q, hq, hbad⟩
    rcases List.mem_cons.mp hq with rfl | hq'
    · rcases hbad with hn | ⟨n, hn, hm, hf⟩
      · simp only [collectPackages, hn]
      · rcases hf with ha | hv | hr
        · simp only [collectPackages, hn, hm, if_true, ha]
        · simp only [collectPackages, hn, hm, if_true, hv]
          cases q.arch <;> rfl
        · simp only [collectPackages, hn, hm, if_true, hr]
          cases q.arch <;> cases q.ver <;> rfl
    · have hrest := ih ⟨q, hq', hbad⟩
      cases hp : p.name with
      | none => simp only [collectPackages, hp]
      | some n =>
        by_cases hm : matchesTerm t n = true
        · simp only [collectPackages, hp, hm, if_true]
          cases p.arch <;> cases p.ver <;> cases p.rel <;> simp [hrest]
        · simp only [collectPackages, hp, hm, if_false, Bool.false_eq_true]
          exact hrest

/-! ## Lemmas about the per-sub-repository search -/

theorem primaryLoop_ok (w : World) (u t : String) :
    ∀ (es : List RepomdEntry) (pkgs : List Package),
      (primaryLoop w u t es).2 = .ok (some pkgs) →
      ∃ xml, collectPackages t xml = .ok pkgs := by
  intro es
  induction es with
  | nil => intro pkgs h; simp [primaryLoop] at h
  | cons e rest ih =>
    intro pkgs h
    by_cases ht : e.typ = "primary"
    · cases hl : locationHref e with
      | error err => simp [primaryLoop, ht, hl] at h
      | ok href =>
        cases hw : w.primary (primaryUrlOf u href) with
        | exn => simp [primaryLoop, ht, hl, hw] at h
        | resp status body =>
          by_cases hs : status = 200
          · subst hs
            cases body with
            | error err => simp [primaryLoop, ht, hl, hw] at h
            | ok xml =>
              cases hc : collectPackages t xml with
              | error err => simp [primaryLoop, ht, hl, hw, hc] at h
              | ok pkgs' =>
                simp only [primaryLoop, ht, if_true, hl, hw, hc, ne_eq, not_true_eq_false,
                  if_false, reduceIte, Except.ok.injEq, Option.some.injEq] at h
                exact ⟨xml, h ▸ hc⟩
          · simp only [primaryLoop, ht, if_true, hl, hw, ne_eq, hs, not_false_eq_true,
              if_true, reduceIte] at h
            exact ih pkgs h
    · simp only [primaryLoop, ht, if_false, reduceIte] at h
      exact ih pkgs h

theorem search_ok_cases (w : World) (u t : String) :
    (search_packages_in_repo w u t).1 = [] ∨
      ∃ xml, collectPackages t xml = .ok (search_packages_in_repo w u t).1 := by
  cases hw : w.repomd u with
  | exn => left; simp [search_packages_in_repo, hw]
  | resp status body =>
    by_cases hs : status = 200
    · subst hs
      cases body with
      | error err => left; simp [search_packages_in_repo, hw]
      | ok entries =>
        cases hp : (primaryLoop w u t entries).2 with
        | error err => left; simp [search_packages_in_repo, hw, hp]
        | ok o =>
          cases o with
          | none => left; simp [search_packages_in_repo, hw, hp]
          | some pkgs =>
            right
            obtain ⟨xml, hc⟩ := primaryLoop_ok w u t entries pkgs hp
            refine ⟨xml, ?_⟩
            simp [search_packages_in_repo, hw, hp, hc]
    · left; simp [search_packages_in_repo, hw, hs]

theorem search_repomd_exn (w : World) (u t : String) (h : w.repomd u = .exn) :
    (search_packages_in_repo w u t).1 = [] := by
  simp [search_packages_in_repo, h]

theorem search_repomd_bad_status (w : World) (u t : String) (s : Nat)
    (b : Except Unit (List RepomdEntry)) (h : w.repomd u = .resp s b) (hs : s ≠ 200) :
    (search_packages_in_repo w u t).1 = [] := by
  simp [search_packages_in_repo, h, hs]

theorem search_repomd_parse_error (w : World) (u t : String) (s : Nat)
    (h : w.repomd u = .resp s (.error ())) :
    (search_packages_in_repo w u t).1 = [] := by
  by_cases hs : s = 200
  · subst hs; simp [search_packages_in_repo, h]
  · simp [search_packages_in_repo, h, hs]

theorem search_primary_error (w : World) (u t : String) (es : List RepomdEntry)
    (h : w.repomd u = .resp 200 (.ok es)) (hp : (primaryLoop w u t es).2 = .error ()) :
    (search_packages_in_repo w u t).1 = [] := by
  simp [search_packages_in_repo, h, hp]

/-! ## Lemmas about the main loop accumulation -/

theorem foldl_mainStep (w : World) (distro : String) (cfg : RepoConfig)
    (architecture search_term : String) (exact : Bool) :
    ∀ (repos : List String) (a : List (Package × String)) (b : List String)
      (c : List (List String)),
      repos.foldl (mainStep w distro cfg architecture search_term exact) (a, b, c) =
        (a ++ flatMapL (repoContribution w distro cfg architecture search_term) repos,
         b ++ flatMapL (repoTraceOf w distro cfg architecture search_term) repos,
         c ++ repos.map (fun repo => perRepoPrintedLines exact search_term
            (search_packages_in_repo w (repomdUrlFor distro cfg architecture repo)
              search_term).1)) := by
  intro repos
  induction repos with
  | nil => intro a b c; simp [flatMapL]
  | cons r rs ih =>
    intro a b c
    simp only [List.foldl_cons, mainStep, flatMapL, List.map_cons]
    rw [ih]
    simp [repoContribution, repoTraceOf, List.append_assoc]

theorem runSearch_allPackages (w : World) (distro : String) (cfg : RepoConfig)
    (architecture search_term : String) (repoArg : Option String) (exact : Bool) :
    (runSearch w distro cfg architecture search_term repoArg exact).allPackages =
      flatMapL (repoContribution w distro cfg architecture search_term)
        (reposToSearch repoArg cfg) := by
  simp only [runSearch]
  rw [foldl_mainStep]
  simp

theorem runSearch_urls (w : World) (distro : String) (cfg : RepoConfig)
    (architecture search_term : String) (repoArg : Option String) (exact : Bool) :
    (runSearch w distro cfg architecture search_term repoArg exact).urls =
      flatMapL (repoTraceOf w distro cfg architecture search_term)
        (reposToSearch repoArg cfg) := by
  simp only [runSearch]
  rw [foldl_mainStep]
  simp

theorem runSearch_printed (w : World) (distro : String) (cfg : RepoConfig)
    (architecture search_term : String) (repoArg : Option String) (exact : Bool) :
    (runSearch w distro cfg architecture search_term repoArg exact).perRepoPrinted =
      (reposToSearch repoArg cfg).map (fun repo => perRepoPrintedLines exact search_term
        (search_packages_in_repo w (repomdUrlFor distro cfg architecture repo)
          search_term).1) := by
  simp only [runSearch]
  rw [foldl_mainStep]
  simp

theorem runSearch_exitCode (w : World) (distro : String) (cfg : RepoConfig)
    (architecture search_term : String) (repoArg : Option String) (exact : Bool) :
    (runSearch w distro cfg architecture search_term repoArg exact).exitCode = 0 := rfl

theorem runSearch_summaryCount (w : World) (distro : String) (cfg : RepoConfig)
    (architecture search_term : String) (repoArg : Option String) (exact : Bool) :
    (runSearch w distro cfg architecture search_term repoArg exact).summaryCount =
      (runSearch w distro cfg architecture search_term repoArg exact).allPackages.length :=
  rfl

theorem runSearch_finalLines (w : World) (distro : String) (cfg : RepoConfig)
    (architecture search_term : String) (repoArg : Option String) (exact : Bool) :
    (runSearch w distro cfg architecture search_term repoArg exact).finalLines =
      ((if exact then
          (runSearch w distro cfg architecture search_term repoArg exact).allPackages.filter
            (fun pr => pr.1.name == search_term)
        else (runSearch w distro cfg architecture search_term repoArg exact).allPackages).map
        (fun pr => pr.1.full_name ++ " (from " ++ pr.2 ++ ")")) := rfl

theorem flatMapL_length {α β : Type} (f : α → List β) :
    ∀ l : List α, (flatMapL f l).length = (l.map (fun a => (f a).length)).sum := by
  intro l
  induction l with
  | nil => simp [flatMapL]
  | cons a as ih => simp [flatMapL, ih]

/-! ## Lemmas about string replacement (for the URL-resolution claim) -/

theorem listPrefixOf_refl : ∀ l : List Char, listPrefixOf l l = true := by
  intro l
  induction l with
  | nil => rfl
  | cons c cs ih => simp [listPrefixOf, ih]

theorem listPrefixOf_append_self : ∀ a b : List Char, listPrefixOf a (a ++ b) = true := by
  intro a
  induction a with
  | nil => intro b; rfl
  | cons c cs ih => intro b; simp [listPrefixOf, ih]

theorem occCount_append_self_pos (pat : List Char) (hpat : pat ≠ []) :
    ∀ p : List Char, 1 ≤ occCount pat (p ++ pat) := by
  intro p
  induction p with
  | nil =>
    obtain ⟨c, cs, rfl⟩ := List.exists_cons_of_ne_nil hpat
    simp [occCount, listPrefixOf_refl]
  | cons c p' ih =>
    simp only [List.cons_append, occCount]
    exact le_trans ih (Nat.le_add_left _ _)

theorem replaceFuel_unique (pat rep : List Char) (hpat : pat ≠ []) :
    ∀ (fuel : Nat) (p : List Char), (p ++ pat).length ≤ fuel →
      occCount pat (p ++ pat) = 1 →
      replaceFuel pat rep fuel (p ++ pat) = p ++ rep := by
  intro fuel
  induction fuel with
  | zero =>
    intro p hlen _
    have hnil : p ++ pat = [] := List.eq_nil_of_length_eq_zero (Nat.le_zero.mp hlen)
    exact absurd (List.append_eq_nil.mp hnil).2 hpat
  | succ f ihf =>
    intro p hlen hocc
    cases p with
    | nil =>
      obtain ⟨c, cs, hp⟩ := List.exists_cons_of_ne_nil hpat
      subst hp
      simp [replaceFuel, listPrefixOf_refl, List.drop_length]
    | cons c p' =>
      have h1 := occCount_append_self_pos pat hpat p'
      simp only [List.cons_append, occCount, List.append_eq] at hocc
      have hpre : listPrefixOf pat (c :: (p' ++ pat)) = false := by
        by_cases hb : listPrefixOf pat (c :: (p' ++ pat)) = true
        · simp [hb] at hocc; omega
        · simpa only [Bool.not_eq_true] using hb
      have hocc' : occCount pat (p' ++ pat) = 1 := by
        simpa [hpre] using hocc
      have hlen' : (p' ++ pat).length ≤ f := by
        simp only [List.cons_append, List.length_cons] at hlen; omega
      simp [List.cons_append, replaceFuel, List.append_eq, hpre, ihf p' hlen' hocc']

theorem replaceAllL_unique (pat rep p : List Char) (hpat : pat ≠ [])
    (hocc : occCount pat (p ++ pat) = 1) :
    replaceAllL pat rep (p ++ pat) = p ++ rep :=
  replaceFuel_unique pat rep hpat _ p (Nat.le_refl _) hocc

theorem take_append_cons {α : Type} : ∀ (p : List α) (c : α) (t : List α),
    (p ++ (c :: t)).take (p.length + 1) = p ++ [c] := by
  intro p
  induction p with
  | nil => intro c t; rfl
  | cons a p' ih => intro c t; simp [List.take, ih]

theorem specIndexDir_strip (p : List Char) :
    specIndexDir (String.mk (p ++ repodataSeg)) = String.mk (p ++ ['/']) := by
  have hseg : repodataSeg = '/' :: "repodata/repomd.xml".data := rfl
  have hsuffix : listSuffixOf "repodata/repomd.xml".data (p ++ repodataSeg) = true := by
    have hsplit : p ++ repodataSeg = (p ++ ['/']) ++ "repodata/repomd.xml".data := by
      rw [hseg]; simp
    rw [hsplit]
    unfold listSuffixOf
    rw [List.reverse_append]
    exact listPrefixOf_append_self _ _
  have hlen19 : ("repodata/repomd.xml".data).length = 19 := rfl
  have hlen20 : repodataSeg.length = 20 := rfl
  simp only [specIndexDir, hsuffix, if_pos rfl]
  rw [List.length_append, hlen19, hlen20]
  have h21 : p.length + 20 - 19 = p.length + 1 := by omega
  rw [h21, hseg, take_append_cons]
  simp

theorem pyReplace_tail_only (p : List Char)
    (hocc : occCount repodataSeg (p ++ repodataSeg) = 1) :
    pyReplace (String.mk (p ++ repodataSeg)) "/repodata/repomd.xml" "/" =
      String.mk (p ++ ['/']) := by
  have hpat : repodataSeg ≠ [] := by decide
  have h1 : "/repodata/repomd.xml".data = repodataSeg := rfl
  have h2 : "/".data = ['/'] := rfl
  simp only [pyReplace, h1, h2]
  exact congrArg String.mk (replaceAllL_unique repodataSeg ['/'] p hpat hocc)

theorem lookup_of_choice (d : String) (h : d ∈ distroChoices) :
    ∃ cfg, REPO_CONFIGS.lookup d = some cfg := by
  simp only [distroChoices, List.mem_cons, List.not_mem_nil, or_false] at h
  rcases h with rfl | rfl | rfl
  · exact ⟨centos7Config, rfl⟩
  · exact ⟨alma8Config, rfl⟩
  · exact ⟨alma9Config, rfl⟩

/-! ## Lemmas about the CLI layer -/

theorem pyOr_self (x : Option String) : pyOr x x = x := by
  unfold pyOr
  exact ite_self x

theorem determineSearchTerm_eq (args : Args) :
    determineSearchTerm args = args.search_term := by
  unfold determineSearchTerm
  exact pyOr_self _

theorem CLImain_allPackages_indep_exact (w : World) (d st a r : Option String) :
    (CLImain w d st a r true).allPackages = (CLImain w d st a r false).allPackages := by
  unfold CLImain
  by_cases hmem : (d.getD "alma9") ∈ distroChoices
  · cases ht : pyTruthy st with
    | false => simp [hmem, determineSearchTerm_eq, ht]
    | true =>
      cases hl : REPO_CONFIGS.lookup (d.getD "alma9") with
      | none => simp [hmem, determineSearchTerm_eq, ht, hl]
      | some cfg =>
        simp [hmem, determineSearchTerm_eq, ht, hl, runSearch_allPackages]
  · simp [hmem]

/-! ## Claim theorems -/

/-- Claim C8: the search term actually used equals the parsed value stored in
the single `search_term` attribute shared by the positional argument and the
`--search-term` flag; the source's `args.search_term or args.search_term`
never consults the positional argument as a separate fallback and is
equivalent to reading `args.search_term` once. -/
theorem claim_C8_search_term_single_slot (args : Args) :
    determineSearchTerm args = args.search_term :=
  determineSearchTerm_eq args

/-- Claim C8 witness: the equivalence at a concrete namespace value. -/
theorem claim_C8_witness :
    determineSearchTerm
      { search_term := some "kernel", distro := "alma9",
        architecture := "x86_64", repo := none, exact := false } = some "kernel" :=
  claim_C8_search_term_single_slot _

/-- Claim C5: every package entry constructed by the search has its stored
full identifier equal to `name + "-" + version + "-" + release + "." + arch`
of its other four fields. -/
theorem claim_C5_full_identifier (w : World) (url term : String) (e : Package)
    (he : e ∈ (search_packages_in_repo w url term).1) :
    e.full_name = e.name ++ "-" ++ e.version ++ "-" ++ e.release ++ "." ++ e.arch := by
  rcases search_ok_cases w url term with hnil | ⟨xml, hc⟩
  · rw [hnil] at he; cases he
  · rw [collect_ok_filterMap term xml _ hc] at he
    obtain ⟨p, _, hpe⟩ := List.mem_filterMap.mp he
    exact (toEntry?_some_spec term p e hpe).2

/-- Claim C5 witness: the round-trip at a concrete search result. -/
theorem claim_C5_witness :
    entryFooBar ∈ (search_packages_in_repo okWorld "http://h/a/repodata/repomd.xml" "foo").1 ∧
      entryFooBar.full_name = entryFooBar.name ++ "-" ++ entryFooBar.version ++ "-" ++
        entryFooBar.release ++ "." ++ entryFooBar.arch :=
  ⟨by decide,
   claim_C5_full_identifier okWorld "http://h/a/repodata/repomd.xml" "foo" entryFooBar
     (by decide)⟩

/-- Claim C2: the summary banner count equals the length of the accumulated
`all_packages` sequence before the exact-match re-filter (equivalently, the
sum of the per-sub-repository result lengths), and the lines printed after
the banner are exactly the accumulated pairs surviving the exact filter
applied a second time, formatted `full_identifier (from sub_repository)`;
with `--exact`, the banner count can therefore exceed the number of printed
lines, as the concrete run exhibits. -/
theorem claim_C2_summary_banner :
    (∀ (w : World) (distro : String) (cfg : RepoConfig)
        (architecture search_term : String) (repoArg : Option String) (exact : Bool),
        (runSearch w distro cfg architecture search_term repoArg exact).summaryCount =
          (runSearch w distro cfg architecture search_term repoArg exact).allPackages.length ∧
        (runSearch w distro cfg architecture search_term repoArg exact).summaryCount =
          ((reposToSearch repoArg cfg).map (fun repo =>
            (search_packages_in_repo w (repomdUrlFor distro cfg architecture repo)
              search_term).1.length)).sum ∧
        (runSearch w distro cfg architecture search_term repoArg exact).finalLines =
          ((if exact then
              (runSearch w distro cfg architecture search_term repoArg exact).allPackages.filter
                (fun pr => pr.1.name == search_term)
            else
              (runSearch w distro cfg architecture search_term repoArg exact).allPackages).map
            (fun pr => pr.1.full_name ++ " (from " ++ pr.2 ++ ")"))) ∧
    ((runSearch okWorld "centos7" centos7Config "x86_64" "foo" none true).summaryCount = 1 ∧
      (runSearch okWorld "centos7" centos7Config "x86_64" "foo" none true).finalLines = []) := by
  constructor
  · intro w distro cfg architecture search_term repoArg exact
    refine ⟨rfl, ?_, rfl⟩
    rw [runSearch_summaryCount, runSearch_allPackages, flatMapL_length]
    simp [repoContribution]
  · exact ⟨by decide, by decide⟩

/-- Claim C7: the accumulated result is ordered first by the order in which
sub-repositories were searched and, within one sub-repository, by document
order (the per-sub-repository list is the order-preserving `filterMap` of the
document's `package` elements), with no deduplication: the concrete run with
the same package in two sub-repositories yields two entries. -/
theorem claim_C7_accumulation_order :
    (∀ (w : World) (distro : String) (cfg : RepoConfig)
        (architecture search_term : String) (repoArg : Option String) (exact : Bool),
        (runSearch w distro cfg architecture search_term repoArg exact).allPackages =
          flatMapL (fun repo =>
              (search_packages_in_repo w (repomdUrlFor distro cfg architecture repo)
                search_term).1.map (fun p => (p, repo)))
            (reposToSearch repoArg cfg)) ∧
    (∀ (t : String) (xml : List PackageXml) (pkgs : List Package),
        collectPackages t xml = .ok pkgs → pkgs = xml.filterMap (toEntry? t)) ∧
    (runSearch okWorld "dup" dupConfig "x86_64" "foo" none false).allPackages =
      [(entryFooBar, "r1"), (entryFooBar, "r2")] := by
  refine ⟨?_, collect_ok_filterMap, by decide⟩
  intro w distro cfg architecture search_term repoArg exact
  rw [runSearch_allPackages]
  rfl

/-- Claim C7 witness: the document-order characterization at a concrete
package list. -/
theorem claim_C7_witness :
    collectPackages "foo" [pkgFoo] = .ok [entryFooBar] ∧
      [entryFooBar] = [pkgFoo].filterMap (toEntry? "foo") :=
  ⟨by decide, claim_C7_accumulation_order.2.1 "foo" [pkgFoo] [entryFooBar] (by decide)⟩

/-- Claim C10: for the centos7 distribution, the constructed metadata-index
URL does not depend on the `--repo` value; two runs differing only in the
supplied sub-repository value request the same URLs and produce the same
package entries, counts, per-repository listings and exit code — the repo
value only changes the sub-repository label stored with results. -/
theorem claim_C10_centos7_repo_independent (w : World)
    (architecture search_term : String) (exact : Bool) (o1 o2 : Option String) :
    (runSearch w "centos7" centos7Config architecture search_term o1 exact).urls =
      (runSearch w "centos7" centos7Config architecture search_term o2 exact).urls ∧
    (runSearch w "centos7" centos7Config architecture search_term o1 exact).allPackages.map
        Prod.fst =
      (runSearch w "centos7" centos7Config architecture search_term o2 exact).allPackages.map
        Prod.fst ∧
    (runSearch w "centos7" centos7Config architecture search_term o1 exact).summaryCount =
      (runSearch w "centos7" centos7Config architecture search_term o2 exact).summaryCount ∧
    (runSearch w "centos7" centos7Config architecture search_term o1 exact).perRepoPrinted =
      (runSearch w "centos7" centos7Config architecture search_term o2 exact).perRepoPrinted ∧
    (runSearch w "centos7" centos7Config architecture search_term o1 exact).exitCode =
      (runSearch w "centos7" centos7Config architecture search_term o2 exact).exitCode ∧
    (∀ r1 r2 : String, repomdUrlFor "centos7" centos7Config architecture r1 =
      repomdUrlFor "centos7" centos7Config architecture r2) := by
  have hurl : ∀ r1 r2 : String, repomdUrlFor "centos7" centos7Config architecture r1 =
      repomdUrlFor "centos7" centos7Config architecture r2 := by
    intro r1 r2
    simp [repomdUrlFor]
  have hrepos : ∀ o : Option String, reposToSearch o centos7Config = [o.getD "os"] := by
    intro o
    cases o <;> rfl
  refine ⟨?_, ?_, ?_, ?_, rfl, hurl⟩
  · rw [runSearch_urls, runSearch_urls, hrepos, hrepos]
    simp only [flatMapL, repoTraceOf, List.append_nil]
    rw [hurl (o1.getD "os") (o2.getD "os")]
  · rw [runSearch_allPackages, runSearch_allPackages, hrepos, hrepos]
    simp only [flatMapL, repoContribution, List.append_nil, List.map_map]
    rw [hurl (o1.getD "os") (o2.getD "os")]
    simp [Function.comp]
  · rw [runSearch_summaryCount, runSearch_summaryCount, runSearch_allPackages,
      runSearch_allPackages, hrepos, hrepos]
    simp only [flatMapL, repoContribution, List.append_nil, List.length_map]
    rw [hurl (o1.getD "os") (o2.getD "os")]
  · rw [runSearch_printed, runSearch_printed, hrepos, hrepos]
    simp only [List.map_cons, List.map_nil]
    rw [hurl (o1.getD "os") (o2.getD "os")]

/-- Claim C1 (counterexample): with `--exact` set and search term `foo`, the
entry for the package named `foobar` — which is not equal to the search term —
still survives the per-sub-repository filtering and is appended to the
sub-repository's result list that feeds `all_packages`, so the claim that
only case-sensitively equal names survive and are appended is false. -/
theorem claim_C1_counterexample :
    (CLImain okWorld (some "centos7") (some "foo") none none true).allPackages =
      [(entryFooBar, "os")] ∧ entryFooBar.name ≠ "foo" :=
  ⟨by decide, by decide⟩

/-- Claim C1 (amended): the per-sub-repository filtering appends an entry to
the sub-repository's result list iff its name contains the search term as a
case-insensitive substring, regardless of `exact_match`: the accumulated
`all_packages` sequence is identical for `--exact` on and off, every
surviving entry's name matches the substring filter, and every well-formed
matching `package` element (in a successfully processed document) does
survive; the exact case-sensitive equality filter is applied only when
printing (per sub-repository and again at the summary stage). -/
theorem claim_C1_amended :
    (∀ (w : World) (d st a r : Option String),
        (CLImain w d st a r true).allPackages = (CLImain w d st a r false).allPackages) ∧
    (∀ (t : String) (xml : List PackageXml) (pkgs : List Package),
        collectPackages t xml = .ok pkgs →
        ∀ e ∈ pkgs, matchesTerm t e.name = true) ∧
    (∀ (t : String) (xml : List PackageXml) (pkgs : List Package),
        collectPackages t xml = .ok pkgs →
        ∀ p ∈ xml, ∀ e, toEntry? t p = some e → e ∈ pkgs) := by
  refine ⟨CLImain_allPackages_indep_exact, ?_, ?_⟩
  · intro t xml pkgs h e he
    rw [collect_ok_filterMap t xml pkgs h] at he
    obtain ⟨p, _, hpe⟩ := List.mem_filterMap.mp he
    exact (toEntry?_some_spec t p e hpe).1
  · intro t xml pkgs h p hp e hpe
    rw [collect_ok_filterMap t xml pkgs h]
    exact List.mem_filterMap.mpr ⟨p, hp, hpe⟩

/-- Claim C1 witness: the amended characterization at concrete inputs. -/
theorem claim_C1_witness :
    ((CLImain okWorld (some "centos7") (some "foo") none none true).allPackages =
      (CLImain okWorld (some "centos7") (some "foo") none none false).allPackages) ∧
    matchesTerm "foo" entryFooBar.name = true ∧
    entryFooBar ∈ [entryFooBar] :=
  ⟨claim_C1_amended.1 okWorld (some "centos7") (some "foo") none none,
   claim_C1_amended.2.1 "foo" [pkgFoo] [entryFooBar] (by decide) entryFooBar (by decide),
   claim_C1_amended.2.2 "foo" [pkgFoo] [entryFooBar] (by decide) pkgFoo (by decide)
     entryFooBar (by decide)⟩

/-- Claim C3 (counterexample): an invocation with the unsupported distribution
identifier `alma10` terminates with exit code 2 — the argument parser rejects
the `--distro` value before `main`'s body runs — not with exit code 1 as
claimed; it does perform zero network calls. -/
theorem claim_C3_counterexample :
    (CLImain okWorld (some "alma10") (some "glibc") none none false).exitCode = 2 ∧
    (CLImain okWorld (some "alma10") (some "glibc") none none false).exitCode ≠ 1 ∧
    (CLImain okWorld (some "alma10") (some "glibc") none none false).urls = [] :=
  ⟨by decide, by decide, by decide⟩

/-- Claim C3 (amended): an invocation whose distribution identifier is outside
the supported set is rejected by the argument parser's `choices` check with
exit code 2 and performs zero network calls; no invocation ever exits with
code 1 (the in-`main` unknown-distro branch returning 1 is unreachable
because `choices` restricts `--distro` to configured distributions); every
exit code is 0 or 2, and an invocation that completes normally exits 0 even
when zero packages were found, as the concrete dead-network run exhibits. -/
theorem claim_C3_amended (w : World) (dArg stArg aArg rArg : Option String) (exact : Bool) :
    ((dArg.getD "alma9") ∉ distroChoices →
      (CLImain w dArg stArg aArg rArg exact).exitCode = 2 ∧
      (CLImain w dArg stArg aArg rArg exact).urls = []) ∧
    (CLImain w dArg stArg aArg rArg exact).exitCode ≠ 1 ∧
    ((CLImain w dArg stArg aArg rArg exact).exitCode = 0 ∨
      (CLImain w dArg stArg aArg rArg exact).exitCode = 2) ∧
    ((CLImain failWorld (some "alma9") (some "foo") none none false).exitCode = 0 ∧
      (CLImain failWorld (some "alma9") (some "foo") none none false).allPackages = []) := by
  have hkey : (CLImain w dArg stArg aArg rArg exact).exitCode = 0 ∨
      CLImain w dArg stArg aArg rArg exact = emptyResult 2 := by
    unfold CLImain
    by_cases hmem : (dArg.getD "alma9") ∈ distroChoices
    · cases ht : pyTruthy stArg with
      | false => right; simp [hmem, determineSearchTerm_eq, ht]
      | true =>
        obtain ⟨cfg, hl⟩ := lookup_of_choice _ hmem
        left
        simp [hmem, determineSearchTerm_eq, ht, hl, runSearch_exitCode]
    · right; simp [hmem]
  refine ⟨?_, ?_, ?_, by decide, by decide⟩
  · intro hnm
    have hrej : CLImain w dArg stArg aArg rArg exact = emptyResult 2 := by
      unfold CLImain
      simp [hnm]
    rw [hrej]
    exact ⟨rfl, rfl⟩
  · rcases hkey with h | h
    · rw [h]; decide
    · rw [h]; decide
  · rcases hkey with h | h
    · left; exact h
    · right; rw [h]; rfl

/-- Claim C3 witness: the amended behavior at the concrete rejected input. -/
theorem claim_C3_witness :
    ((some "alma10" : Option String).getD "alma9") ∉ distroChoices ∧
    (CLImain okWorld (some "alma10") (some "x") none none false).exitCode = 2 ∧
    (CLImain okWorld (some "alma10") (some "x") none none false).urls = [] :=
  ⟨by decide,
   ((claim_C3_amended okWorld (some "alma10") (some "x") none none false).1 (by decide)).1,
   ((claim_C3_amended okWorld (some "alma10") (some "x") none none false).1 (by decide)).2⟩

/-- Claim C4 (counterexample): a sub-repository whose first package-list fetch
fails with HTTP 404 can still contribute entries: with two `primary`
candidates in the index, the code `continue`s to the second candidate and
returns its packages, so "any package-list fetch failure implies zero
entries" is false. -/
theorem claim_C4_counterexample :
    primaryUrlOf "http://h/a/repodata/repomd.xml" "p1.xml.gz" = "http://h/a/p1.xml.gz" ∧
    twoPrimaryWorld.primary "http://h/a/p1.xml.gz" = .resp 404 (.error ()) ∧
    (search_packages_in_repo twoPrimaryWorld "http://h/a/repodata/repomd.xml" "foo").1 =
      [entryFooBar] :=
  ⟨by decide, by decide, by decide⟩

/-- Claim C4 (amended): an index fetch that raises, returns a non-success
status, or fails to parse yields zero entries for that sub-repository, as
does any raised exception while processing the `primary` candidates
(including package-list transport errors, decompression and parse failures) —
but a non-success status on one package-list fetch only moves on to the next
`primary` candidate; the search-loop exit code is 0 regardless of any
sub-repository's outcome, and the accumulation decomposes per sub-repository,
so one sub-repository's failure never affects the others' contributions. -/
theorem claim_C4_amended :
    (∀ (w : World) (u t : String), w.repomd u = .exn →
      (search_packages_in_repo w u t).1 = []) ∧
    (∀ (w : World) (u t : String) (s : Nat) (b : Except Unit (List RepomdEntry)),
      w.repomd u = .resp s b → s ≠ 200 → (search_packages_in_repo w u t).1 = []) ∧
    (∀ (w : World) (u t : String) (s : Nat), w.repomd u = .resp s (.error ()) →
      (search_packages_in_repo w u t).1 = []) ∧
    (∀ (w : World) (u t : String) (es : List RepomdEntry),
      w.repomd u = .resp 200 (.ok es) → (primaryLoop w u t es).2 = .error () →
      (search_packages_in_repo w u t).1 = []) ∧
    (∀ (w : World) (distro : String) (cfg : RepoConfig)
        (architecture search_term : String) (repoArg : Option String) (exact : Bool),
      (runSearch w distro cfg architecture search_term repoArg exact).exitCode = 0) ∧
    (∀ (w : World) (distro base path r : String) (rs : List String)
        (architecture search_term : String) (exact : Bool),
      (runSearch w distro ⟨base, r :: rs, path⟩ architecture search_term none
          exact).allPackages =
        (search_packages_in_repo w
            (repomdUrlFor distro ⟨base, r :: rs, path⟩ architecture r)
            search_term).1.map (fun p => (p, r)) ++
          (runSearch w distro ⟨base, rs, path⟩ architecture search_term none
            exact).allPackages) := by
  refine ⟨search_repomd_exn, search_repomd_bad_status, search_repomd_parse_error,
    search_primary_error, runSearch_exitCode, ?_⟩
  intro w distro base path r rs architecture search_term exact
  rw [runSearch_allPackages, runSearch_allPackages]
  simp only [reposToSearch, flatMapL]
  rfl

/-- Claim C4 witness: each amended failure mode at a concrete network. -/
theorem claim_C4_witness :
    (search_packages_in_repo failWorld "http://x" "foo").1 = [] ∧
    (search_packages_in_repo notFoundWorld "http://x" "foo").1 = [] ∧
    (search_packages_in_repo parseErrWorld "http://x" "foo").1 = [] ∧
    (search_packages_in_repo badFieldWorld "http://h/a/repodata/repomd.xml" "foo").1 = [] :=
  ⟨claim_C4_amended.1 failWorld "http://x" "foo" rfl,
   claim_C4_amended.2.1 notFoundWorld "http://x" "foo" 404 (.ok []) rfl (by decide),
   claim_C4_amended.2.2.1 parseErrWorld "http://x" "foo" 200 rfl,
   claim_C4_amended.2.2.2.1 badFieldWorld "http://h/a/repodata/repomd.xml" "foo"
     [primEntry] rfl (by decide)⟩

/-- Claim C6 (counterexample): Python's `str.replace` replaces every
occurrence of `/repodata/repomd.xml`, not only the trailing segment; for an
index URL in which the segment also occurs earlier, the computed package-list
URL differs from the join against the URL with only its trailing segment
removed, so the claim's "for all index URLs" clause is false. -/
theorem claim_C6_counterexample :
    primaryUrlOf "http://h/os/x/repodata/repomd.xml/repodata/repomd.xml"
        "repodata/primary.xml.gz" ≠
      urljoinModel
        (specIndexDir "http://h/os/x/repodata/repomd.xml/repodata/repomd.xml")
        "repodata/primary.xml.gz" := by decide

/-- Claim C6 (amended): whenever `/repodata/repomd.xml` occurs exactly once in
the index URL — at its end, which holds for every URL the program builds from
its templates with segment-free architecture and repo values — the source's
replace-then-join computation coincides with the standard relative-URL-join
against the directory obtained by removing only the trailing
`repodata/repomd.xml` segment. -/
theorem claim_C6_amended (p : List Char) (loc : String)
    (hocc : occCount repodataSeg (p ++ repodataSeg) = 1) :
    primaryUrlOf (String.mk (p ++ repodataSeg)) loc =
      urljoinModel (specIndexDir (String.mk (p ++ repodataSeg))) loc := by
  unfold primaryUrlOf
  rw [pyReplace_tail_only p hocc, specIndexDir_strip]

/-- Claim C6 witness: the coincidence at the real centos7 index URL. -/
theorem claim_C6_witness :
    occCount repodataSeg
        ("https://vault.centos.org/7.9.2009/os/x86_64".data ++ repodataSeg) = 1 ∧
    primaryUrlOf
        (String.mk ("https://vault.centos.org/7.9.2009/os/x86_64".data ++ repodataSeg))
        "repodata/primary.xml.gz" =
      urljoinModel
        (specIndexDir
          (String.mk ("https://vault.centos.org/7.9.2009/os/x86_64".data ++ repodataSeg)))
        "repodata/primary.xml.gz" :=
  ⟨by decide,
   claim_C6_amended "https://vault.centos.org/7.9.2009/os/x86_64".data
     "repodata/primary.xml.gz" (by decide)⟩

/-- Claim C9: a sub-repository whose package-list document contains at least
one well-formed matching `package` element but also a matching element with a
missing required field yields zero packages for the whole sub-repository:
the exception is caught at sub-repository granularity and the entries already
collected from that document are discarded. -/
theorem claim_C9_malformed_discards_all (w : World) (url term : String)
    (re : RepomdEntry) (href : String) (xml : List PackageXml)
    (hrep : w.repomd url = .resp 200 (.ok [re]))
    (htyp : re.typ = "primary")
    (hloc : re.locations = [some href])
    (hprim : w.primary (primaryUrlOf url href) = .resp 200 (.ok xml))
    (_hgood : ∃ p ∈ xml, (toEntry? term p).isSome)
    (hbad : ∃ q ∈ xml, badElem term q) :
    (search_packages_in_repo w url term).1 = [] := by
  have hcol : collectPackages term xml = .error () := collect_error_of_bad term xml hbad
  have hl : locationHref re = .ok href := by simp [locationHref, hloc]
  have hploop : (primaryLoop w url term [re]).2 = .error () := by
    simp [primaryLoop, htyp, hl, hprim, hcol]
  exact search_primary_error w url term [re] hrep hploop

/-- Claim C9 witness: the discard at a concrete document containing a valid
match (`foobar`) and a matching element with a missing `arch` field. -/
theorem claim_C9_witness :
    (∃ p ∈ [pkgFoo, pkgBad], (toEntry? "foo" p).isSome) ∧
    (∃ q ∈ [pkgFoo, pkgBad], badElem "foo" q) ∧
    (search_packages_in_repo badFieldWorld "http://h/a/repodata/repomd.xml" "foo").1 = [] :=
  ⟨⟨pkgFoo, by decide, by decide⟩,
   ⟨pkgBad, by decide, Or.inr ⟨"football", rfl, by decide, Or.inl rfl⟩⟩,
   claim_C9_malformed_discards_all badFieldWorld "http://h/a/repodata/repomd.xml" "foo"
     primEntry "repodata/primary.xml.gz" [pkgFoo, pkgBad] rfl rfl rfl rfl
     ⟨pkgFoo, by decide, by decide⟩
     ⟨pkgBad, by decide, Or.inr ⟨"football", rfl, by decide, Or.inl rfl⟩⟩⟩
